import Mathlib

/-!
Verification development for the DemoMed assessment solver (`src/index.js`).

The JavaScript source is shallowly embedded here:
* JS record-field values become the inductive type `DemoMed.JSVal`
  (finite JS numbers are modelled as rationals, which is exact for every
  decimal literal the program manipulates);
* the pure field parsers, scorers and the aggregator become computable
  Lean functions with the same names;
* the retry loop of `fetchWithRetry` and the pagination loop of
  `getAllPatients` become explicit recursions over a stream of
  externally supplied outcomes.

Decimal rational constants are written with the helper `q10` (so
`q10 996 1` is the literal `99.6`) because that representation is
evaluable by `decide`.
-/

namespace DemoMed

/-- Rational number `m / 10 ^ e`, used to write the decimal literals of the
source exactly (`q10 996 1 = 99.6`). -/
def q10 (m : Int) (e : Nat) : ℚ := mkRat m (10 ^ e)

/-- A JavaScript value as it can appear in a patient-record field arriving
from JSON: `null`, a missing field (`undefined`), a boolean, a finite
number, or a string. -/
inductive JSVal where
  | vnull
  | vundef
  | vbool (b : Bool)
  | vnum (q : ℚ)
  | vstr (s : String)
deriving DecidableEq, Repr

/-- Model of `String.prototype.trim()`: drop whitespace from both ends.
Implemented on the character list so it evaluates by `decide`. -/
def jsTrim (s : String) : String :=
  ⟨(((s.data.dropWhile Char.isWhitespace).reverse).dropWhile Char.isWhitespace).reverse⟩

/-- Embedding of `isNonEmptyString` (src/index.js:19-21):
`typeof x === 'string' && x.trim().length > 0`. -/
def isNonEmptyString : JSVal → Bool
  | .vstr s => !(jsTrim s).data.isEmpty
  | _ => false

/-- Numeric value of a digit list, most significant digit first. -/
def foldDigits (cs : List Char) : Nat :=
  cs.foldl (fun a c => 10 * a + (c.toNat - 48)) 0

/-- Strip an optional leading sign, returning whether it was `-`. -/
def splitSign : List Char → Bool × List Char
  | '-' :: rest => (true, rest)
  | '+' :: rest => (false, rest)
  | cs => (false, cs)

/-- Parse an optionally signed nonempty digit string into an integer. -/
def parseSignedInt (cs : List Char) : Option Int :=
  let (neg, ds) := splitSign cs
  if ds.isEmpty || !ds.all Char.isDigit then none
  else some (if neg then -(foldDigits ds : Int) else (foldDigits ds : Int))

/-- Parse the exponent suffix of a numeric literal: empty means exponent 0,
otherwise `e`/`E` followed by an optionally signed digit string. -/
def parseExpPart : List Char → Option Int
  | [] => some 0
  | 'e' :: rest => parseSignedInt rest
  | 'E' :: rest => parseSignedInt rest
  | _ => none

/-- Signed decimal value `(-1)^neg * m * 10^e`, built with `mkRat` so it
evaluates by `decide`. -/
def decValue (neg : Bool) (m : Nat) (e : Int) : ℚ :=
  let mag : ℚ := if 0 ≤ e then mkRat (m * 10 ^ e.toNat) 1 else mkRat m (10 ^ (-e).toNat)
  if neg then -mag else mag

/-- Model of the JS builtin `Number(string)` on an already-trimmed string,
restricted to results that are finite: an optional sign, then decimal
digits with an optional fractional part (at least one digit overall), then
an optional `e`/`E` exponent.  Everything else (including `Infinity` and
strings that are `NaN`) yields `none`, exactly the inputs on which the
source's `Number.isFinite` guard rejects the parse. -/
def jsNumber (cs : List Char) : Option ℚ :=
  let (neg, cs₁) := splitSign cs
  let ip := cs₁.takeWhile Char.isDigit
  let r₁ := cs₁.dropWhile Char.isDigit
  let fp := match r₁ with
    | '.' :: r => r.takeWhile Char.isDigit
    | _ => []
  let r₂ := match r₁ with
    | '.' :: r => r.dropWhile Char.isDigit
    | _ => r₁
  if ip.isEmpty && fp.isEmpty then none
  else
    match parseExpPart r₂ with
    | none => none
    | some e => some (decValue neg (foldDigits (ip ++ fp)) (e - fp.length))

/-- Embedding of `parseNumberStrict` (src/index.js:23-28): a finite native
number is returned as-is; a non-string or empty/whitespace-only string is
rejected; otherwise the trimmed string is parsed with `Number` and the
result kept only when finite. -/
def parseNumberStrict : JSVal → Option ℚ
  | .vnum q => some q
  | .vstr s => if (jsTrim s).data.isEmpty then none else jsNumber (jsTrim s).data
  | _ => none

/-- Model of `String.prototype.split('/')` on the character list: split at
every `'/'`, keeping empty segments, so `"".split` is `[""]` and
`"/".split` is `["", ""]`, as in JS. -/
def splitOnSlash : List Char → List (List Char)
  | [] => [[]]
  | c :: rest =>
    let r := splitOnSlash rest
    if c = '/' then [] :: r
    else
      match r with
      | h :: t => (c :: h) :: t
      | [] => [[c]]

/-- Result record of `parseBloodPressure`. -/
structure ParsedBloodPressure where
  systolic : Option ℚ
  diastolic : Option ℚ
  valid : Bool
deriving DecidableEq, Repr

/-- Embedding of `parseBloodPressure` (src/index.js:30-41): reject
non-strings and empty/whitespace-only strings; split on `/`; reject unless
exactly two parts; parse each part with `parseNumberStrict`; `valid` iff
both parts parsed. -/
def parseBloodPressure : JSVal → ParsedBloodPressure
  | .vstr s =>
    if (jsTrim s).data.isEmpty then ⟨none, none, false⟩
    else
      match splitOnSlash s.data with
      | [a, b] =>
        let sys := parseNumberStrict (.vstr ⟨a⟩)
        let dia := parseNumberStrict (.vstr ⟨b⟩)
        ⟨sys, dia, sys.isSome && dia.isSome⟩
      | _ => ⟨none, none, false⟩
  | _ => ⟨none, none, false⟩

/-- Systolic staging of `scoreBloodPressure` (src/index.js:55-58). -/
def sysStage (systolic : ℚ) : Nat :=
  if systolic < 120 then 1
  else if 120 ≤ systolic ∧ systolic ≤ 129 then 2
  else if 130 ≤ systolic ∧ systolic ≤ 139 then 3
  else if 140 ≤ systolic then 4
  else 0

/-- Diastolic staging of `scoreBloodPressure` (src/index.js:60-62). -/
def diaStage (diastolic : ℚ) : Nat :=
  if diastolic < 80 then 1
  else if 80 ≤ diastolic ∧ diastolic ≤ 89 then 3
  else if 90 ≤ diastolic then 4
  else 0

/-- Embedding of `scoreBloodPressure` (src/index.js:43-73): 0 when the
parse is invalid; 1 for Normal (`sys<120 && dia<80`); 2 for Elevated
(`120<=sys<=129 && dia<80`); otherwise 4 when the larger stage is at least
4, else 3. -/
def scoreBloodPressure (bp : JSVal) : Nat :=
  let p := parseBloodPressure bp
  if !p.valid then 0
  else
    match p.systolic, p.diastolic with
    | some systolic, some diastolic =>
      if systolic < 120 ∧ diastolic < 80 then 1
      else if (120 ≤ systolic ∧ systolic ≤ 129) ∧ diastolic < 80 then 2
      else if 4 ≤ max (sysStage systolic) (diaStage diastolic) then 4
      else 3
    | _, _ => 0

/-- Embedding of `scoreTemperature` (src/index.js:75-82). -/
def scoreTemperature (temp : JSVal) : Nat :=
  match parseNumberStrict temp with
  | none => 0
  | some t =>
    if t ≤ q10 995 1 then 0
    else if q10 996 1 ≤ t ∧ t ≤ q10 1009 1 then 1
    else if (101 : ℚ) ≤ t then 2
    else 0

/-- Embedding of `scoreAge` (src/index.js:84-90). -/
def scoreAge (age : JSVal) : Nat :=
  match parseNumberStrict age with
  | none => 0
  | some a => if 65 < a then 2 else 1

/-- A patient record as consumed by the analyzer; each field is an
arbitrary JS value, since the remote data may be malformed. -/
structure Patient where
  patient_id : JSVal
  blood_pressure : JSVal
  temperature : JSVal
  age : JSVal
deriving DecidableEq, Repr

/-- Embedding of `hasDataQualityIssue` (src/index.js:92-97). -/
def hasDataQualityIssue (p : Patient) : Bool :=
  let bpOk := (parseBloodPressure p.blood_pressure).valid
  let tOk := (parseNumberStrict p.temperature).isSome
  let aOk := (parseNumberStrict p.age).isSome
  !(bpOk && tOk && aOk)

/-- Usable identifier of a record: the guard `if (!isNonEmptyString(id))
continue;` of `analyzePatients` (src/index.js:179-180), returning the
identifier string when the record is kept. -/
def usableId : JSVal → Option String
  | .vstr s => if (jsTrim s).data.isEmpty then none else some s
  | _ => none

/-- Condition for pushing onto `highRisk` (src/index.js:182-187): the sum
of the three category scores is at least 4. -/
def includeHighRisk (p : Patient) : Bool :=
  4 ≤ scoreBloodPressure p.blood_pressure + scoreTemperature p.temperature + scoreAge p.age

/-- Condition for pushing onto `fever` (src/index.js:189-190):
`tVal !== null && tVal >= 99.6`. -/
def includeFever (p : Patient) : Bool :=
  match parseNumberStrict p.temperature with
  | some t => q10 996 1 ≤ t
  | none => false

/-- One pass of the `for` loop of `analyzePatients` (src/index.js:178-193),
producing the raw `highRisk`, `fever` and `dq` arrays in push order. -/
def analyzeRaw : List Patient → List String × List String × List String
  | [] => ([], [], [])
  | p :: rest =>
    let (h, f, d) := analyzeRaw rest
    match usableId p.patient_id with
    | none => (h, f, d)
    | some id =>
      ((if includeHighRisk p then id :: h else h),
       (if includeFever p then id :: f else f),
       (if hasDataQualityIssue p then id :: d else d))

/-- Insertion into a JS `Set` in iteration order: append unless present. -/
def insertUniq (acc : List String) (x : String) : List String :=
  if x ∈ acc then acc else acc ++ [x]

/-- Model of `Array.from(new Set(arr))`: deduplicate keeping the first
occurrence of each element. -/
def setDedup (l : List String) : List String := l.foldl insertUniq []

/-- Lexicographic comparison of character lists by code point, the order
`Array.prototype.sort()` uses on (BMP) strings. -/
def strLeb : List Char → List Char → Bool
  | [], _ => true
  | _ :: _, [] => false
  | c :: cs, d :: ds =>
    if c < d then true
    else if d < c then false
    else strLeb cs ds

/-- Lexicographic string order used by the final `.sort()`. -/
def sLe (a b : String) : Prop := strLeb a.data b.data = true

instance : DecidableRel sLe := fun _ _ => instDecidableEqBool _ _

/-- Embedding of `uniqSort` (src/index.js:196): deduplicate, then sort
ascending lexicographically. -/
def uniqSort (l : List String) : List String := List.insertionSort sLe (setDedup l)

/-- The submitted result set (src/index.js:197-201). -/
structure ResultSet where
  high_risk_patients : List String
  fever_patients : List String
  data_quality_issues : List String
deriving DecidableEq, Repr

/-- Embedding of `analyzePatients` (src/index.js:173-202). -/
def analyzePatients (patients : List Patient) : ResultSet :=
  let (h, f, d) := analyzeRaw patients
  ⟨uniqSort h, uniqSort f, uniqSort d⟩

/-- Identifier pushed onto `highRisk` by one record, if any. -/
def highSel (p : Patient) : Option String :=
  match usableId p.patient_id with
  | some id => if includeHighRisk p then some id else none
  | none => none

/-- Identifier pushed onto `fever` by one record, if any. -/
def feverSel (p : Patient) : Option String :=
  match usableId p.patient_id with
  | some id => if includeFever p then some id else none
  | none => none

/-- Identifier pushed onto `dq` by one record, if any. -/
def dqSel (p : Patient) : Option String :=
  match usableId p.patient_id with
  | some id => if hasDataQualityIssue p then some id else none
  | none => none

/-- Static credential attached to every request (src/index.js:11, default
value; the environment override is external configuration). -/
def apiKeyValue : String := "ak_ae557ca6698db7f65dd458a9e7aeba13f3f464214c104a48"

/-- Lookup of a property in a JS-object modelled as an association list
with distinct keys. -/
def lookupHeader : List (String × String) → String → Option String
  | [], _ => none
  | e :: rest, k => if e.1 = k then some e.2 else lookupHeader rest k

/-- Assignment of one property during object-literal spread: update the
value in place when the key is present, otherwise append the property. -/
def setKey : List (String × String) → String × String → List (String × String)
  | [], kv => [kv]
  | e :: rest, kv => if e.1 = kv.1 then (e.1, kv.2) :: rest else e :: setKey rest kv

/-- Embedding of the header object built by `fetchWithRetry`
(src/index.js:107-110): the literal starts with
`'x-api-key': API_KEY` and then spreads `options.headers`, whose
properties are assigned in order and override on key collision. -/
def requestHeaders (callerHeaders : List (String × String)) : List (String × String) :=
  callerHeaders.foldl setKey [("x-api-key", apiKeyValue)]

/-- An HTTP response as observed by one `fetch` attempt: status code, the
parsed `retry-after` header in seconds when present, the body text, and
the JSON parse of the body (`none` when `res.json()` would throw). -/
structure HttpResponse (α : Type) where
  status : Nat
  retryAfterSec : Option ℚ
  body : String
  json : Option α

/-- Outcome of one `fetch` attempt: either a response arrived, or the
request itself threw (network-level failure). -/
inductive FetchOutcome (α : Type) where
  | response (r : HttpResponse α)
  | netError (msg : String)

/-- The errors `fetchWithRetry` can propagate: the `HTTP <status>:
<snippet>` error thrown for a non-2xx response, a network-level failure,
or a JSON body-parse failure. -/
inductive FetchError where
  | httpError (status : Nat) (snippet : String)
  | netError (msg : String)
  | jsonError
deriving DecidableEq, Repr

/-- Model of `text.slice(0, 200)`: at most the first 200 characters. -/
def slice200 (s : String) : String := ⟨s.data.take 200⟩

/-- Model of `res.ok`: status in the 2xx range. -/
def okStatus (s : Nat) : Bool := decide (200 ≤ s) && decide (s ≤ 299)

/-- Embedding of the `while (true)` retry loop of `fetchWithRetry`
(src/index.js:99-141).  `attempt` counts the attempts already made and
`fuel` is `maxRetries - attempt`, so `fuel > 0` is exactly the guard
`attempt <= maxRetries` evaluated after the increment; the sleeps have no
observable effect on the returned value and are dropped, while the
backoff variable is threaded faithfully.  Each attempt consumes
`outcomes attempt`; the result is paired with the number of attempts
performed.  Branches, in source order: a 429 response retries (and, once
the budget is exhausted, falls through to the `!res.ok` throw, which the
`catch` re-raises); so do 500 and 503; any other non-2xx response throws
`HTTP <status>: <first 200 chars of body>`, which the `catch` clause
either retries or, past the budget, propagates; a 2xx response returns
the parsed JSON body or, when parsing throws, retries likewise. -/
def fetchGo (outcomes : Nat → FetchOutcome α) : Nat → Nat → Nat → Except FetchError α × Nat
  | fuel, attempt, backoff =>
    let a := attempt + 1
    let nextBackoff := min (backoff * 2) 5000
    let retry := fun (err : FetchError) =>
      match fuel with
      | Nat.succ k => fetchGo outcomes k a nextBackoff
      | 0 => (Except.error err, a)
    match outcomes attempt with
    | .netError m => retry (.netError m)
    | .response r =>
      if r.status = 429 then retry (.httpError r.status (slice200 r.body))
      else if r.status = 500 ∨ r.status = 503 then retry (.httpError r.status (slice200 r.body))
      else if !okStatus r.status then retry (.httpError r.status (slice200 r.body))
      else
        match r.json with
        | some v => (Except.ok v, a)
        | none => retry FetchError.jsonError

/-- Embedding of `fetchWithRetry(url, options)` with the default
`maxRetries = 8` and initial backoff 300ms, applied to a stream of
attempt outcomes. -/
def fetchWithRetry (outcomes : Nat → FetchOutcome α) : Except FetchError α × Nat :=
  fetchGo outcomes 8 0 300

/-- The error a single attempt outcome gives rise to (`none` when the
attempt succeeds): used to state that the error propagated on budget
exhaustion is the one produced by the last attempt. -/
def outcomeError : FetchOutcome α → Option FetchError
  | .netError m => some (.netError m)
  | .response r =>
    if okStatus r.status then
      match r.json with
      | some _ => none
      | none => some FetchError.jsonError
    else some (.httpError r.status (slice200 r.body))

/-- One page of the `/patients` response as consumed by `getAllPatients`:
`data` is `some` when `payload.data` is an array, `totalPages` is `some`
when `pagination.totalPages` has type number, `hasNext` is `some` when
`pagination.hasNext` has type boolean. -/
structure PageResponse where
  data : Option (List Patient)
  totalPages : Option ℚ
  hasNext : Option Bool

/-- Tracking of `totalPages` across pages (src/index.js:156): overwrite
whenever the current page carries a numeric `totalPages` (zero included),
otherwise keep the previous value. -/
def trackTotalPages (old newVal : Option ℚ) : Option ℚ :=
  match newVal with
  | some tp => some tp
  | none => old

/-- Embedding of the continuation decision of `getAllPatients`
(src/index.js:158-161): an explicit boolean `hasNext` wins; otherwise the
JS conditional `totalPages ? page < totalPages : data.length ===
DEFAULT_LIMIT` is evaluated, whose condition is *truthiness* of the
tracked number — `null` and `0` both fall through to the
full-page-length test. -/
def decideHasNext (pagHasNext : Option Bool) (totalPages : Option ℚ) (page dataLen : Nat) : Bool :=
  match pagHasNext with
  | some b => b
  | none =>
    match totalPages with
    | some tp => if tp ≠ 0 then decide ((page : ℚ) < tp) else decide (dataLen = 20)
    | none => decide (dataLen = 20)

/-- Embedding of the `while (true)` pagination loop of `getAllPatients`
(src/index.js:143-171), reading page `n` from `pages n`, starting at page
1 with no `totalPages` seen.  The JS loop has no attempt bound, so the
model carries fuel and answers `none` when the loop is still running
after `fuel` pages; the pacing sleep is dropped. -/
def paginateGo (pages : Nat → PageResponse) :
    Nat → Nat → Option ℚ → List Patient → Option (List Patient)
  | 0, _, _, _ => none
  | fuel+1, page, totalPages, acc =>
    let payload := pages page
    let data := payload.data.getD []
    let tp := trackTotalPages totalPages payload.totalPages
    if decideHasNext payload.hasNext tp page data.length
    then paginateGo pages fuel (page + 1) tp (acc ++ data)
    else some (acc ++ data)

/-- Modelled from the claim wording for C4: the continuation decision as
the claim states it — an explicit boolean flag wins; else, when a
total-page-count was observed (any tracked numeric value, zero included),
continue exactly while `page < totalPages`; else continue when the page
was full. -/
def claimHasNext (pagHasNext : Option Bool) (totalPages : Option ℚ) (page dataLen : Nat) : Bool :=
  match pagHasNext with
  | some b => b
  | none =>
    match totalPages with
    | some tp => decide ((page : ℚ) < tp)
    | none => decide (dataLen = 20)

/-- Modelled from the amended claim wording for C4: as `claimHasNext`,
except that a tracked total-page-count of `0` is not used and falls
through to the full-page test, matching JS truthiness. -/
def claimHasNextAmended (pagHasNext : Option Bool) (totalPages : Option ℚ)
    (page dataLen : Nat) : Bool :=
  match pagHasNext with
  | some b => b
  | none =>
    match totalPages with
    | some tp => if tp = 0 then decide (dataLen = 20) else decide ((page : ℚ) < tp)
    | none => decide (dataLen = 20)

/-! Helper lemmas about the lexicographic order used by the final sort. -/

/-- Characterization of `strLeb` on two nonempty lists. -/
theorem strLeb_cons (c d : Char) (cs ds : List Char) :
    strLeb (c :: cs) (d :: ds) = true ↔ c < d ∨ (c = d ∧ strLeb cs ds = true) := by
  rcases lt_trichotomy c d with h | h | h
  · simp [strLeb, h]
  · subst h
    simp [strLeb, lt_irrefl]
  · simp [strLeb, h, lt_asymm h, ne_of_gt h]

/-- Reflexivity of `strLeb`. -/
theorem strLeb_refl : ∀ a : List Char, strLeb a a = true
  | [] => rfl
  | c :: cs => by simp [strLeb_cons, strLeb_refl cs]

/-- Totality of `strLeb`. -/
theorem strLeb_total : ∀ a b : List Char, strLeb a b = true ∨ strLeb b a = true
  | [], _ => Or.inl rfl
  | _ :: _, [] => Or.inr rfl
  | c :: cs, d :: ds => by
    rcases lt_trichotomy c d with h | h | h
    · exact Or.inl (by simp [strLeb_cons, h])
    · rcases strLeb_total cs ds with ht | ht
      · exact Or.inl (by simp [strLeb_cons, h, ht])
      · exact Or.inr (by simp [strLeb_cons, h.symm, ht])
    · exact Or.inr (by simp [strLeb_cons, h])

/-- Transitivity of `strLeb`. -/
theorem strLeb_trans : ∀ a b c : List Char,
    strLeb a b = true → strLeb b c = true → strLeb a c = true
  | [], _, _, _, _ => rfl
  | _ :: _, [], _, h, _ => by simp [strLeb] at h
  | _ :: _, _ :: _, [], _, h => by simp [strLeb] at h
  | x :: xs, y :: ys, z :: zs, h₁, h₂ => by
    rw [strLeb_cons] at h₁ h₂ ⊢
    rcases h₁ with h₁ | ⟨rfl, h₁⟩
    · rcases h₂ with h₂ | ⟨rfl, h₂⟩
      · exact Or.inl (lt_trans h₁ h₂)
      · exact Or.inl h₁
    · rcases h₂ with h₂ | ⟨rfl, h₂⟩
      · exact Or.inl h₂
      · exact Or.inr ⟨rfl, strLeb_trans _ _ _ h₁ h₂⟩

/-- Antisymmetry of `strLeb`. -/
theorem strLeb_antisymm : ∀ a b : List Char,
    strLeb a b = true → strLeb b a = true → a = b
  | [], [], _, _ => rfl
  | [], _ :: _, _, h => by simp [strLeb] at h
  | _ :: _, [], h, _ => by simp [strLeb] at h
  | x :: xs, y :: ys, h₁, h₂ => by
    rw [strLeb_cons] at h₁ h₂
    rcases h₁ with h₁ | ⟨rfl, h₁⟩
    · rcases h₂ with h₂ | ⟨rfl, h₂⟩
      · exact absurd h₂ (lt_asymm h₁)
      · exact absurd h₁ (lt_irrefl _)
    · rcases h₂ with h₂ | ⟨_, h₂⟩
      · exact absurd h₂ (lt_irrefl _)
      · rw [strLeb_antisymm xs ys h₁ h₂]

instance : IsTotal String sLe := ⟨fun a b => strLeb_total a.data b.data⟩

instance : IsTrans String sLe := ⟨fun a b c => strLeb_trans a.data b.data c.data⟩

instance : IsRefl String sLe := ⟨fun a => strLeb_refl a.data⟩

instance : IsAntisymm String sLe :=
  ⟨fun a b h₁ h₂ => by
    cases a
    cases b
    exact congrArg String.mk (strLeb_antisymm _ _ h₁ h₂)⟩

/-! Helper lemmas about deduplication and `uniqSort`. -/

/-- Membership in a JS-Set insertion. -/
theorem mem_insertUniq {acc : List String} {x a : String} :
    a ∈ insertUniq acc x ↔ a ∈ acc ∨ a = x := by
  by_cases h : x ∈ acc
  · simp only [insertUniq, if_pos h]
    constructor
    · exact Or.inl
    · rintro (ha | rfl)
      · exact ha
      · exact h
  · simp [insertUniq, if_neg h]

/-- A JS-Set insertion preserves distinctness. -/
theorem nodup_insertUniq {acc : List String} (h : acc.Nodup) (x : String) :
    (insertUniq acc x).Nodup := by
  by_cases hx : x ∈ acc
  · simpa [insertUniq, hx] using h
  · simp [insertUniq, hx, List.nodup_append, h]

/-- Membership after folding JS-Set insertions. -/
theorem mem_foldl_insertUniq : ∀ (l acc : List String) (a : String),
    a ∈ l.foldl insertUniq acc ↔ a ∈ acc ∨ a ∈ l
  | [], acc, a => by simp
  | x :: xs, acc, a => by
    simp only [List.foldl_cons, mem_foldl_insertUniq xs, mem_insertUniq, List.mem_cons]
    tauto

/-- Distinctness after folding JS-Set insertions. -/
theorem nodup_foldl_insertUniq : ∀ (l acc : List String),
    acc.Nodup → (l.foldl insertUniq acc).Nodup
  | [], _, h => h
  | x :: xs, _, h => nodup_foldl_insertUniq xs _ (nodup_insertUniq h x)

/-- `setDedup` preserves membership. -/
theorem mem_setDedup {l : List String} {a : String} : a ∈ setDedup l ↔ a ∈ l := by
  simp [setDedup, mem_foldl_insertUniq]

/-- `setDedup` produces a duplicate-free list. -/
theorem nodup_setDedup (l : List String) : (setDedup l).Nodup :=
  nodup_foldl_insertUniq l [] List.nodup_nil

/-- `uniqSort` permutes the deduplicated list. -/
theorem uniqSort_perm (l : List String) : (uniqSort l).Perm (setDedup l) :=
  List.perm_insertionSort sLe (setDedup l)

/-- `uniqSort` preserves membership. -/
theorem mem_uniqSort {l : List String} {a : String} : a ∈ uniqSort l ↔ a ∈ l := by
  rw [(uniqSort_perm l).mem_iff, mem_setDedup]

/-- `uniqSort` output is duplicate-free. -/
theorem nodup_uniqSort (l : List String) : (uniqSort l).Nodup :=
  (uniqSort_perm l).nodup_iff.mpr (nodup_setDedup l)

/-- `uniqSort` output is sorted for the lexicographic order. -/
theorem sorted_uniqSort (l : List String) : List.Sorted sLe (uniqSort l) :=
  List.sorted_insertionSort sLe (setDedup l)

/-- Two lists with the same members have the same `uniqSort`. -/
theorem uniqSort_eq_of_mem_iff {l₁ l₂ : List String} (h : ∀ a, a ∈ l₁ ↔ a ∈ l₂) :
    uniqSort l₁ = uniqSort l₂ := by
  apply List.eq_of_perm_of_sorted _ (sorted_uniqSort l₁) (sorted_uniqSort l₂)
  apply (uniqSort_perm l₁).trans
  apply List.Perm.trans _ (uniqSort_perm l₂).symm
  rw [List.perm_ext_iff_of_nodup (nodup_setDedup l₁) (nodup_setDedup l₂)]
  intro a
  rw [mem_setDedup, mem_setDedup]
  exact h a

/-! Selector form of the analyzer loop. -/

/-- The three raw arrays of the analyzer loop are the `filterMap`s of the
per-record selectors. -/
theorem analyzeRaw_eq (ps : List Patient) :
    analyzeRaw ps = (ps.filterMap highSel, ps.filterMap feverSel, ps.filterMap dqSel) := by
  induction ps with
  | nil => rfl
  | cons p rest ih =>
    simp only [analyzeRaw, ih]
    cases h : usableId p.patient_id with
    | none => simp [List.filterMap_cons, highSel, feverSel, dqSel, h]
    | some id =>
      by_cases h₁ : includeHighRisk p <;> by_cases h₂ : includeFever p <;>
        by_cases h₃ : hasDataQualityIssue p <;>
          simp [List.filterMap_cons, highSel, feverSel, dqSel, h, h₁, h₂, h₃]

/-- Componentwise form of `analyzePatients`. -/
theorem analyzePatients_eq (ps : List Patient) :
    analyzePatients ps =
      ⟨uniqSort (ps.filterMap highSel), uniqSort (ps.filterMap feverSel),
        uniqSort (ps.filterMap dqSel)⟩ := by
  simp [analyzePatients, analyzeRaw_eq]

/-- Records without a usable identifier are exactly those failing
`isNonEmptyString`. -/
theorem usableId_eq_none_iff (v : JSVal) :
    usableId v = none ↔ isNonEmptyString v = false := by
  cases v <;> simp [usableId, isNonEmptyString]

/-! Claim theorems. -/

/-- C5: `scoreBloodPressure` maps 115/75 to 1, 125/75 to 2, 135/85 to 3,
150/95 to 4, any unparsable input to 0, and every validly parsed pair
matching neither the Normal nor the Elevated condition to 4 when
`max(sysStage, diaStage) ≥ 4` and to 3 otherwise — hence always to 3 or
4 in that case. -/
theorem scoreBloodPressure_spec :
    scoreBloodPressure (.vstr "115/75") = 1 ∧
    scoreBloodPressure (.vstr "125/75") = 2 ∧
    scoreBloodPressure (.vstr "135/85") = 3 ∧
    scoreBloodPressure (.vstr "150/95") = 4 ∧
    (∀ bp : JSVal, (parseBloodPressure bp).valid = false → scoreBloodPressure bp = 0) ∧
    (∀ (bp : JSVal) (s d : ℚ), parseBloodPressure bp = ⟨some s, some d, true⟩ →
      ¬(s < 120 ∧ d < 80) → ¬((120 ≤ s ∧ s ≤ 129) ∧ d < 80) →
      scoreBloodPressure bp = (if 4 ≤ max (sysStage s) (diaStage d) then 4 else 3) ∧
      (scoreBloodPressure bp = 3 ∨ scoreBloodPressure bp = 4)) := by
  refine ⟨by decide, by decide, by decide, by decide, ?_, ?_⟩
  · intro bp h
    simp [scoreBloodPressure, h]
  · intro bp s d hp h₁ h₂
    simp only [scoreBloodPressure, hp, Bool.not_true, Bool.false_eq_true, if_false,
      if_neg h₁, if_neg h₂]
    by_cases hm : 4 ≤ max (sysStage s) (diaStage d) <;> simp [hm]

/-- Witness for C5 at the concrete input "110/95": neither Normal nor
Elevated, and the score is 4 (in particular in {3,4}). -/
theorem scoreBloodPressure_spec_witness :
    parseBloodPressure (.vstr "110/95") = ⟨some 110, some 95, true⟩ ∧
    (scoreBloodPressure (.vstr "110/95") = 3 ∨ scoreBloodPressure (.vstr "110/95") = 4) :=
  ⟨by decide,
   (scoreBloodPressure_spec.2.2.2.2.2 (.vstr "110/95") 110 95 (by decide) (by decide)
      (by decide)).2⟩

/-- C8: the data-quality flag holds exactly when at least one of blood
pressure, temperature or age fails to parse, and it is independent of the
risk scores — a record can score 0 on every axis and still be flagged. -/
theorem hasDataQualityIssue_spec :
    (∀ p : Patient, hasDataQualityIssue p = true ↔
      ((parseBloodPressure p.blood_pressure).valid = false ∨
       parseNumberStrict p.temperature = none ∨ parseNumberStrict p.age = none)) ∧
    (∃ p : Patient, scoreBloodPressure p.blood_pressure = 0 ∧
       scoreTemperature p.temperature = 0 ∧ scoreAge p.age = 0 ∧
       hasDataQualityIssue p = true) := by
  constructor
  · intro p
    cases hbp : (parseBloodPressure p.blood_pressure).valid <;>
      cases ht : parseNumberStrict p.temperature <;>
        cases ha : parseNumberStrict p.age <;>
          simp [hasDataQualityIssue, hbp, ht, ha]
  · exact ⟨⟨.vstr "x", .vnull, .vnull, .vnull⟩, by decide, by decide, by decide, by decide⟩

/-- Witness for C8: a concrete record whose three fields all fail to
parse is flagged, by the iff of the claim theorem. -/
theorem hasDataQualityIssue_spec_witness :
    hasDataQualityIssue ⟨.vstr "p9", .vundef, .vstr "n/a", .vbool true⟩ = true :=
  (hasDataQualityIssue_spec.1 ⟨.vstr "p9", .vundef, .vstr "n/a", .vbool true⟩).mpr
    (Or.inl (by decide))

/-- C9: a record whose `patient_id` is not a non-empty string is excluded
from all three output lists: removing it from the input leaves the
analyzer output unchanged, whatever its other fields and scores are. -/
theorem analyzePatients_skips_unusable (p : Patient) (l₁ l₂ : List Patient)
    (h : isNonEmptyString p.patient_id = false) :
    analyzePatients (l₁ ++ p :: l₂) = analyzePatients (l₁ ++ l₂) := by
  have hu : usableId p.patient_id = none := (usableId_eq_none_iff _).mpr h
  rw [analyzePatients_eq, analyzePatients_eq]
  simp [List.filterMap_append, List.filterMap_cons, highSel, feverSel, dqSel, hu]

/-- Witness for C9: a whitespace-only identifier with otherwise severely
malformed fields is dropped from the analysis. -/
theorem analyzePatients_skips_unusable_witness :
    isNonEmptyString (JSVal.vstr "  ") = false ∧
    analyzePatients [⟨.vstr "  ", .vstr "190/120", .vstr "bad", .vnull⟩,
        ⟨.vstr "P7", .vstr "120/80", .vnum 98, .vnum 30⟩] =
      analyzePatients [⟨.vstr "P7", .vstr "120/80", .vnum 98, .vnum 30⟩] :=
  ⟨by decide,
   analyzePatients_skips_unusable ⟨.vstr "  ", .vstr "190/120", .vstr "bad", .vnull⟩ []
     [⟨.vstr "P7", .vstr "120/80", .vnum 98, .vnum 30⟩] (by decide)⟩

/-- C10: every parsed temperature strictly between 100.9 and 101.0 scores
0 (the brackets leave a gap), yet a record with a usable identifier and
such a temperature is still put on the fever list, since fever membership
only requires the parsed value to be at least 99.6. -/
theorem temperature_gap_fever (t : ℚ) (p : Patient) (ps : List Patient) (id : String)
    (h₁ : q10 1009 1 < t) (h₂ : t < 101)
    (hparse : parseNumberStrict p.temperature = some t)
    (hid : usableId p.patient_id = some id)
    (hmem : p ∈ ps) :
    scoreTemperature p.temperature = 0 ∧ id ∈ (analyzePatients ps).fever_patients := by
  have h₀ : ¬ t ≤ q10 995 1 := by
    push_neg
    exact lt_trans (by decide) h₁
  constructor
  · simp only [scoreTemperature, hparse]
    rw [if_neg h₀, if_neg (by push_neg; intro _; exact h₁), if_neg (not_le.mpr h₂)]
  · have hf : includeFever p = true := by
      simp only [includeFever, hparse, decide_eq_true_eq]
      exact le_of_lt (lt_of_le_of_lt (by decide) h₁)
    rw [analyzePatients_eq]
    simp only []
    rw [mem_uniqSort, List.mem_filterMap]
    exact ⟨p, hmem, by simp [feverSel, hid, hf]⟩

/-- Witness for C10 at temperature 100.95. -/
theorem temperature_gap_fever_witness :
    q10 1009 1 < q10 10095 2 ∧ q10 10095 2 < 101 ∧
    scoreTemperature (JSVal.vnum (q10 10095 2)) = 0 ∧
    "P1" ∈ (analyzePatients
      [⟨.vstr "P1", .vstr "120/80", .vnum (q10 10095 2), .vnum 40⟩]).fever_patients := by
  have h := temperature_gap_fever (q10 10095 2)
    ⟨.vstr "P1", .vstr "120/80", .vnum (q10 10095 2), .vnum 40⟩
    [⟨.vstr "P1", .vstr "120/80", .vnum (q10 10095 2), .vnum 40⟩] "P1"
    (by decide) (by decide) rfl (by decide) (List.mem_singleton.mpr rfl)
  exact ⟨by decide, by decide, h.1, h.2⟩

/-- C6: the three output lists are duplicate-free and sorted ascending in
the lexicographic order, and the output is invariant under permutation
and under duplication of the input records (hence deterministic and
idempotent). -/
theorem analyzePatients_deterministic :
    (∀ ps : List Patient,
       (analyzePatients ps).high_risk_patients.Nodup ∧
       (analyzePatients ps).fever_patients.Nodup ∧
       (analyzePatients ps).data_quality_issues.Nodup ∧
       List.Sorted sLe (analyzePatients ps).high_risk_patients ∧
       List.Sorted sLe (analyzePatients ps).fever_patients ∧
       List.Sorted sLe (analyzePatients ps).data_quality_issues) ∧
    (∀ ps₁ ps₂ : List Patient, ps₁.Perm ps₂ → analyzePatients ps₁ = analyzePatients ps₂) ∧
    (∀ ps : List Patient, analyzePatients (ps ++ ps) = analyzePatients ps) := by
  refine ⟨?_, ?_, ?_⟩
  · intro ps
    rw [analyzePatients_eq]
    exact ⟨nodup_uniqSort _, nodup_uniqSort _, nodup_uniqSort _,
      sorted_uniqSort _, sorted_uniqSort _, sorted_uniqSort _⟩
  · intro ps₁ ps₂ hperm
    rw [analyzePatients_eq, analyzePatients_eq]
    simp only [ResultSet.mk.injEq]
    exact ⟨uniqSort_eq_of_mem_iff (fun _ => (hperm.filterMap highSel).mem_iff),
      uniqSort_eq_of_mem_iff (fun _ => (hperm.filterMap feverSel).mem_iff),
      uniqSort_eq_of_mem_iff (fun _ => (hperm.filterMap dqSel).mem_iff)⟩
  · intro ps
    rw [analyzePatients_eq, analyzePatients_eq]
    simp only [ResultSet.mk.injEq]
    refine ⟨?_, ?_, ?_⟩ <;>
      exact uniqSort_eq_of_mem_iff (fun a => by simp [List.filterMap_append])

/-- Witness for C6: swapping two concrete records leaves the output
unchanged. -/
theorem analyzePatients_deterministic_witness :
    ([⟨.vstr "A", .vstr "150/95", .vnum 101, .vnum 70⟩,
      ⟨.vstr "B", .vnull, .vnull, .vnull⟩] : List Patient).Perm
      [⟨.vstr "B", .vnull, .vnull, .vnull⟩,
       ⟨.vstr "A", .vstr "150/95", .vnum 101, .vnum 70⟩] ∧
    analyzePatients [⟨.vstr "A", .vstr "150/95", .vnum 101, .vnum 70⟩,
        ⟨.vstr "B", .vnull, .vnull, .vnull⟩] =
      analyzePatients [⟨.vstr "B", .vnull, .vnull, .vnull⟩,
        ⟨.vstr "A", .vstr "150/95", .vnum 101, .vnum 70⟩] := by
  have hp : ([⟨.vstr "A", .vstr "150/95", .vnum 101, .vnum 70⟩,
      ⟨.vstr "B", .vnull, .vnull, .vnull⟩] : List Patient).Perm
      [⟨.vstr "B", .vnull, .vnull, .vnull⟩,
       ⟨.vstr "A", .vstr "150/95", .vnum 101, .vnum 70⟩] :=
    List.Perm.swap _ _ _
  exact ⟨hp, analyzePatients_deterministic.2.1 _ _ hp⟩

/-- C3 counterexample: the input "120/abc" has a failing diastolic part,
and the result is not all-null — the systolic component keeps its parsed
value 120 while `valid` is false.  This refutes the claim that every
invalid input yields `systolic=null, diastolic=null, valid=false`. -/
theorem parseBloodPressure_not_all_null :
    (parseBloodPressure (.vstr "120/abc")).valid = false ∧
    parseBloodPressure (.vstr "120/abc") ≠ ⟨none, none, false⟩ := by decide

/-- C3 amended: `valid=true` exactly when the input is a non-empty string
splitting on `/` into two parts that both parse; a non-empty string with
a two-part split always reports the componentwise parse results, so a
field is null exactly when its part fails to parse (both may be null, as
for "abc/def"); an input that is not a non-empty string, or does not
split into exactly two parts, yields the all-null result. -/
theorem parseBloodPressure_spec :
    (∀ bp : JSVal, (parseBloodPressure bp).valid = true ↔
      ∃ s a b, bp = JSVal.vstr s ∧ isNonEmptyString bp = true ∧
        splitOnSlash s.data = [a, b] ∧
        (parseNumberStrict (.vstr ⟨a⟩)).isSome = true ∧
        (parseNumberStrict (.vstr ⟨b⟩)).isSome = true) ∧
    (∀ (s : String) (a b : List Char), isNonEmptyString (.vstr s) = true →
      splitOnSlash s.data = [a, b] →
      parseBloodPressure (.vstr s) =
        ⟨parseNumberStrict (.vstr ⟨a⟩), parseNumberStrict (.vstr ⟨b⟩),
         (parseNumberStrict (.vstr ⟨a⟩)).isSome && (parseNumberStrict (.vstr ⟨b⟩)).isSome⟩) ∧
    (∀ bp : JSVal, isNonEmptyString bp = false → parseBloodPressure bp = ⟨none, none, false⟩) ∧
    (∀ s : String, (∀ a b, splitOnSlash s.data ≠ [a, b]) →
      parseBloodPressure (.vstr s) = ⟨none, none, false⟩) := by
  refine ⟨?_, ?_, ?_, ?_⟩
  · intro bp
    constructor
    · intro h
      cases bp with
      | vstr s =>
        by_cases he : (jsTrim s).data.isEmpty
        · simp [parseBloodPressure, he] at h
        · cases hs : splitOnSlash s.data with
          | nil => simp [parseBloodPressure, he, hs] at h
          | cons a t =>
            cases t with
            | nil => simp [parseBloodPressure, he, hs] at h
            | cons b t₂ =>
              cases t₂ with
              | nil =>
                rw [show parseBloodPressure (.vstr s) =
                    (if (jsTrim s).data.isEmpty then ⟨none, none, false⟩
                     else match splitOnSlash s.data with
                       | [a, b] =>
                         ⟨parseNumberStrict (.vstr ⟨a⟩), parseNumberStrict (.vstr ⟨b⟩),
                          (parseNumberStrict (.vstr ⟨a⟩)).isSome &&
                            (parseNumberStrict (.vstr ⟨b⟩)).isSome⟩
                       | _ => ⟨none, none, false⟩) from rfl, if_neg he, hs] at h
                rw [Bool.and_eq_true] at h
                exact ⟨s, a, b, rfl, by simp [isNonEmptyString, he], hs, h.1, h.2⟩
              | cons c t₃ => simp [parseBloodPressure, he, hs] at h
      | vnull => simp [parseBloodPressure] at h
      | vundef => simp [parseBloodPressure] at h
      | vbool b => simp [parseBloodPressure] at h
      | vnum q => simp [parseBloodPressure] at h
    · rintro ⟨s, a, b, rfl, hne, hs, ha, hb⟩
      have he : (jsTrim s).data.isEmpty = false := by
        simpa [isNonEmptyString] using hne
      simp [parseBloodPressure, he, hs, ha, hb]
  · intro s a b hne hs
    have he : (jsTrim s).data.isEmpty = false := by
      simpa [isNonEmptyString] using hne
    simp [parseBloodPressure, he, hs]
  · intro bp h
    cases bp with
    | vstr s =>
      have he : (jsTrim s).data.isEmpty = true := by
        simpa [isNonEmptyString] using h
      simp [parseBloodPressure, he]
    | vnull => rfl
    | vundef => rfl
    | vbool b => rfl
    | vnum q => rfl
  · intro s hshape
    by_cases he : (jsTrim s).data.isEmpty
    · simp [parseBloodPressure, he]
    · cases hs : splitOnSlash s.data with
      | nil => simp [parseBloodPressure, he, hs]
      | cons a t =>
        cases t with
        | nil => simp [parseBloodPressure, he, hs]
        | cons b t₂ =>
          cases t₂ with
          | nil => exact absurd hs (hshape a b)
          | cons c t₃ => simp [parseBloodPressure, he, hs]

/-- Witness for C3 (amended) at the valid input "118/79". -/
theorem parseBloodPressure_spec_witness :
    isNonEmptyString (.vstr "118/79") = true ∧
    parseBloodPressure (.vstr "118/79") =
      ⟨parseNumberStrict (.vstr "118"), parseNumberStrict (.vstr "79"),
       (parseNumberStrict (.vstr "118")).isSome && (parseNumberStrict (.vstr "79")).isSome⟩ :=
  ⟨by decide, parseBloodPressure_spec.2.1 "118/79" "118".data "79".data (by decide) (by decide)⟩

/-- Retry-loop invariant: at most `fuel + 1` further attempts are made,
and an error result is always the error produced by the last attempt. -/
theorem fetchGo_spec {α : Type} (outcomes : Nat → FetchOutcome α) :
    ∀ (fuel attempt backoff : Nat),
      (fetchGo outcomes fuel attempt backoff).2 ≤ attempt + fuel + 1 ∧
      ∀ e, (fetchGo outcomes fuel attempt backoff).1 = Except.error e →
        outcomeError (outcomes ((fetchGo outcomes fuel attempt backoff).2 - 1)) = some e := by
  intro fuel
  induction fuel with
  | zero =>
    intro attempt backoff
    rw [fetchGo]
    cases ho : outcomes attempt with
    | netError m =>
      simp only
      refine ⟨by omega, ?_⟩
      intro e he
      rw [Except.error.injEq] at he
      simp [outcomeError, ho, ← he]
    | response r =>
      simp only
      split_ifs with h₁ h₂ h₃
      · refine ⟨by omega, ?_⟩
        intro e he
        rw [Except.error.injEq] at he
        simp [outcomeError, ho, ← he, okStatus, h₁]
      · refine ⟨by omega, ?_⟩
        intro e he
        rw [Except.error.injEq] at he
        rcases h₂ with h₂ | h₂ <;> simp [outcomeError, ho, ← he, okStatus, h₂]
      · refine ⟨by omega, ?_⟩
        intro e he
        rw [Except.error.injEq] at he
        rw [Bool.not_eq_true'] at h₃
        simp [outcomeError, ho, ← he, h₃]
      · have hok : okStatus r.status = true := by
          rw [Bool.not_eq_true'] at h₃
          simpa using h₃
        cases hj : r.json with
        | some v =>
          refine ⟨by show attempt + 1 ≤ attempt + 0 + 1; omega, ?_⟩
          intro e he
          have hoe : (Except.ok v : Except FetchError α) = Except.error e := he
          exact Except.noConfusion hoe
        | none =>
          refine ⟨by show attempt + 1 ≤ attempt + 0 + 1; omega, ?_⟩
          intro e he
          have he' : (Except.error FetchError.jsonError : Except FetchError α) =
              Except.error e := he
          rw [Except.error.injEq] at he'
          show outcomeError (outcomes (attempt + 1 - 1)) = some e
          simp [outcomeError, ho, ← he', hok, hj]
  | succ k ih =>
    intro attempt backoff
    rw [fetchGo]
    cases ho : outcomes attempt with
    | netError m =>
      simp only
      refine ⟨?_, (ih (attempt + 1) (min (backoff * 2) 5000)).2⟩
      have := (ih (attempt + 1) (min (backoff * 2) 5000)).1
      omega
    | response r =>
      simp only
      split_ifs with h₁ h₂ h₃
      · refine ⟨?_, (ih (attempt + 1) (min (backoff * 2) 5000)).2⟩
        have := (ih (attempt + 1) (min (backoff * 2) 5000)).1
        omega
      · refine ⟨?_, (ih (attempt + 1) (min (backoff * 2) 5000)).2⟩
        have := (ih (attempt + 1) (min (backoff * 2) 5000)).1
        omega
      · refine ⟨?_, (ih (attempt + 1) (min (backoff * 2) 5000)).2⟩
        have := (ih (attempt + 1) (min (backoff * 2) 5000)).1
        omega
      · cases hj : r.json with
        | some v =>
          refine ⟨by show attempt + 1 ≤ attempt + (k + 1) + 1; omega, ?_⟩
          intro e he
          have hoe : (Except.ok v : Except FetchError α) = Except.error e := he
          exact Except.noConfusion hoe
        | none =>
          refine ⟨?_, ?_⟩
          · show (fetchGo outcomes k (attempt + 1) (min (backoff * 2) 5000)).2 ≤
              attempt + (k + 1) + 1
            have := (ih (attempt + 1) (min (backoff * 2) 5000)).1
            omega
          · intro e he
            have he' : (fetchGo outcomes k (attempt + 1) (min (backoff * 2) 5000)).1 =
                Except.error e := he
            show outcomeError (outcomes
              ((fetchGo outcomes k (attempt + 1) (min (backoff * 2) 5000)).2 - 1)) = some e
            exact (ih (attempt + 1) (min (backoff * 2) 5000)).2 e he'

/-- C7: with the default budget (8 retries), the Resilient Fetcher makes
at most 9 attempts in total (termination is inherent in the model being a
total function), and whenever it returns an error, that error is the one
produced by the last attempt made — the last encountered error is
propagated, not retried further. -/
theorem fetchWithRetry_attempt_bound {α : Type} (outcomes : Nat → FetchOutcome α) :
    (fetchWithRetry outcomes).2 ≤ 9 ∧
    ∀ e, (fetchWithRetry outcomes).1 = Except.error e →
      outcomeError (outcomes ((fetchWithRetry outcomes).2 - 1)) = some e := by
  have h := fetchGo_spec outcomes 8 0 300
  exact ⟨by simpa using h.1, h.2⟩

/-- Witness for C7: a stream of network failures exhausts the budget at 9
attempts and propagates the final network error. -/
theorem fetchWithRetry_attempt_bound_witness :
    (fetchWithRetry (fun _ => FetchOutcome.netError (α := Nat) "boom")).2 ≤ 9 ∧
    outcomeError ((fun _ => FetchOutcome.netError (α := Nat) "boom")
        ((fetchWithRetry (fun _ => FetchOutcome.netError (α := Nat) "boom")).2 - 1)) =
      some (FetchError.netError "boom") :=
  ⟨(fetchWithRetry_attempt_bound (fun _ => FetchOutcome.netError "boom")).1,
   (fetchWithRetry_attempt_bound (fun _ => FetchOutcome.netError "boom")).2
     (FetchError.netError "boom") rfl⟩

/-- C1 counterexample: a constant stream of HTTP 404 responses is *not*
failed immediately — the `HTTP 404` error is thrown inside the `try`, so
the `catch` retries it through the backoff path; nine attempts are made
before the error is propagated. -/
theorem http404_retried :
    (fetchWithRetry (fun _ => FetchOutcome.response
        ⟨404, none, "not found", (none : Option Nat)⟩)).2 = 9 ∧
    (fetchWithRetry (fun _ => FetchOutcome.response
        ⟨404, none, "not found", (none : Option Nat)⟩)).1 =
      Except.error (.httpError 404 "not found") ∧
    (fetchWithRetry (fun _ => FetchOutcome.response
        ⟨404, none, "not found", (none : Option Nat)⟩)).2 ≠ 1 :=
  ⟨rfl, rfl, by decide⟩

/-- C1 amended: a response whose status is non-2xx and not 429/500/503
produces the error carrying the status code and the body truncated to at
most 200 characters, but that error is caught by the generic exception
handler and retried with backoff like a transient failure; only once the
attempt budget is exhausted (9 attempts) is it propagated. -/
theorem nonRetryableStatus_propagated {α : Type} (s : Nat) (ra : Option ℚ) (body : String)
    (j : Option α) (hok : okStatus s = false) (h429 : s ≠ 429) (h500 : s ≠ 500)
    (h503 : s ≠ 503) :
    fetchWithRetry (fun _ => FetchOutcome.response ⟨s, ra, body, j⟩) =
      (Except.error (.httpError s (slice200 body)), 9) := by
  have key : ∀ (fuel attempt backoff : Nat),
      fetchGo (fun _ => FetchOutcome.response ⟨s, ra, body, j⟩) fuel attempt backoff =
        (Except.error (.httpError s (slice200 body)), attempt + fuel + 1) := by
    intro fuel
    induction fuel with
    | zero =>
      intro attempt backoff
      rw [fetchGo]
      simp [h429, h500, h503, hok]
    | succ k ih =>
      intro attempt backoff
      rw [fetchGo]
      simp only [h429, h500, h503, hok, if_false, or_self, Bool.not_false, if_true]
      rw [ih (attempt + 1) (min (backoff * 2) 5000)]
      refine congrArg _ ?_
      omega
  have h := key 8 0 300
  rw [fetchWithRetry, h]

/-- Witness for C1 (amended) at status 404 with body "nf". -/
theorem nonRetryableStatus_propagated_witness :
    okStatus 404 = false ∧
    fetchWithRetry (fun _ => FetchOutcome.response ⟨404, none, "nf", (none : Option Nat)⟩) =
      (Except.error (.httpError 404 (slice200 "nf")), 9) :=
  ⟨rfl, nonRetryableStatus_propagated 404 none "nf" none rfl (by decide) (by decide)
    (by decide)⟩

/-- Property assignment changes exactly the assigned key. -/
theorem lookupHeader_setKey (obj : List (String × String)) (kv : String × String)
    (k : String) :
    lookupHeader (setKey obj kv) k = if kv.1 = k then some kv.2 else lookupHeader obj k := by
  induction obj with
  | nil => rfl
  | cons e rest ih =>
    by_cases he : e.1 = kv.1
    · simp only [setKey, if_pos he]
      show (if e.1 = k then some kv.2 else lookupHeader rest k) =
        if kv.1 = k then some kv.2 else if e.1 = k then some e.2 else lookupHeader rest k
      by_cases hk : kv.1 = k
      · simp [hk, he.trans hk]
      · have hek : ¬ e.1 = k := fun h => hk (he.symm.trans h)
        simp [hk, hek]
    · simp only [setKey, if_neg he]
      show (if e.1 = k then some e.2 else lookupHeader (setKey rest kv) k) =
        if kv.1 = k then some kv.2 else if e.1 = k then some e.2 else lookupHeader rest k
      rw [ih]
      by_cases hk : kv.1 = k <;> by_cases hek : e.1 = k
      · exact absurd (hek.trans hk.symm) he
      all_goals simp [hk, hek]

/-- Key lookup is `none` when the key is absent. -/
theorem lookupHeader_eq_none (l : List (String × String)) (k : String)
    (h : k ∉ l.map Prod.fst) : lookupHeader l k = none := by
  induction l with
  | nil => rfl
  | cons e rest ih =>
    simp only [List.map_cons, List.mem_cons] at h
    push_neg at h
    have hne : ¬ e.1 = k := fun he => h.1 he.symm
    show (if e.1 = k then some e.2 else lookupHeader rest k) = none
    rw [if_neg hne]
    exact ih h.2

/-- Folding property assignments over an object with distinct keys: a
caller-supplied key wins, otherwise the base object is consulted. -/
theorem lookupHeader_foldl_setKey :
    ∀ (hs init : List (String × String)) (k : String),
      (hs.map Prod.fst).Nodup →
      lookupHeader (hs.foldl setKey init) k =
        match lookupHeader hs k with
        | some v => some v
        | none => lookupHeader init k
  | [], init, k, _ => rfl
  | (k₀, v₀) :: t, init, k, hnd => by
    simp only [List.map_cons, List.nodup_cons] at hnd
    simp only [List.foldl_cons]
    rw [lookupHeader_foldl_setKey t _ k hnd.2, lookupHeader_setKey]
    show (match lookupHeader t k with
        | some v => some v
        | none => if k₀ = k then some v₀ else lookupHeader init k) =
      (match (if k₀ = k then some v₀ else lookupHeader t k) with
        | some v => some v
        | none => lookupHeader init k)
    by_cases hk : k₀ = k
    · subst hk
      rw [lookupHeader_eq_none t k₀ hnd.1]
      simp
    · simp only [if_neg hk]

/-- C2 counterexample: a caller-supplied `x-api-key` header *replaces*
the static credential, because the object spread assigns the caller's
properties after the credential property. -/
theorem requestHeaders_override :
    lookupHeader (requestHeaders [("x-api-key", "caller-supplied")]) "x-api-key" =
      some "caller-supplied" ∧
    ("caller-supplied" : String) ≠ apiKeyValue := ⟨rfl, by decide⟩

/-- C2 amended: for any caller-supplied headers (with distinct keys, as a
JS object literal has), the outgoing request carries an `x-api-key`
header: the static credential when the caller supplies no header of that
name, and the caller's value otherwise — the caller cannot remove the
header but can replace it. -/
theorem requestHeaders_credential (hs : List (String × String))
    (hnd : (hs.map Prod.fst).Nodup) :
    lookupHeader (requestHeaders hs) "x-api-key" =
      some ((lookupHeader hs "x-api-key").getD apiKeyValue) := by
  unfold requestHeaders
  rw [lookupHeader_foldl_setKey hs _ _ hnd]
  cases h : lookupHeader hs "x-api-key" <;> simp [lookupHeader]

/-- Witness for C2 (amended): with unrelated caller headers the
credential is present with its static value. -/
theorem requestHeaders_credential_witness :
    (([("accept", "application/json")] : List (String × String)).map Prod.fst).Nodup ∧
    lookupHeader (requestHeaders [("accept", "application/json")]) "x-api-key" =
      some apiKeyValue :=
  ⟨by decide, requestHeaders_credential [("accept", "application/json")] (by decide)⟩

/-- Last-some characterization of the `getLast?` of a cons. -/
theorem getLast?_cons_eq {α : Type} : ∀ (q : α) (l : List α),
    (q :: l).getLast? = match l.getLast? with
      | some w => some w
      | none => some q
  | _, [] => rfl
  | q, b :: bs => by
    have ih := getLast?_cons_eq b bs
    rw [List.getLast?_cons_cons]
    cases h : (b :: bs).getLast? with
    | some w => rfl
    | none =>
      rw [ih] at h
      cases hb : bs.getLast? <;> simp [hb] at h

/-- C4 counterexample: with no explicit flag, a tracked total-page-count
of 0 and a full page of 20 records, the code *continues* (the JS
conditional treats 0 as falsy and falls through to the full-page test)
while the claimed rule, `page < totalPages`, would stop. -/
theorem decideHasNext_zero_totalPages :
    decideHasNext none (some 0) 1 20 = true ∧ claimHasNext none (some 0) 1 20 = false := by
  decide

/-- C4 amended: the paginator's continuation decision follows the claimed
priority order with one proviso — the tracked total-page-count is only
consulted when it is nonzero; a tracked value of 0 falls through to the
full-page test.  The tracked value itself is the last numeric value seen
across pages (including 0), i.e. folding the per-page update equals the
last non-null observation. -/
theorem decideHasNext_spec :
    (∀ (hn : Option Bool) (tp : Option ℚ) (page dataLen : Nat),
       decideHasNext hn tp page dataLen = claimHasNextAmended hn tp page dataLen) ∧
    (∀ (init : Option ℚ) (vals : List (Option ℚ)),
       List.foldl trackTotalPages init vals =
         match (vals.filterMap id).getLast? with
         | some v => some v
         | none => init) := by
  constructor
  · intro hn tp page dataLen
    cases hn with
    | some b => rfl
    | none =>
      cases tp with
      | none => rfl
      | some q =>
        by_cases hq : q = 0 <;> simp [decideHasNext, claimHasNextAmended, hq]
  · intro init vals
    induction vals generalizing init with
    | nil => rfl
    | cons v vs ih =>
      cases v with
      | none =>
        rw [List.foldl_cons, show trackTotalPages init none = init from rfl, ih init,
          List.filterMap_cons]
        simp only [id_eq]
      | some q =>
        rw [List.foldl_cons, show trackTotalPages init (some q) = some q from rfl,
          ih (some q), List.filterMap_cons]
        simp only [id_eq]
        rw [getLast?_cons_eq q (vs.filterMap id)]
        cases (vs.filterMap id).getLast? <;> rfl

/-- Witness for C4 (amended) evaluating both sides at a concrete input. -/
theorem decideHasNext_spec_witness :
    decideHasNext none (some 3) 2 7 = claimHasNextAmended none (some 3) 2 7 ∧
    List.foldl trackTotalPages none [some 5, none, some 0, none] =
      match (([some 5, none, some 0, none].filterMap id : List ℚ)).getLast? with
      | some w => some w
      | none => none :=
  ⟨decideHasNext_spec.1 none (some 3) 2 7,
   decideHasNext_spec.2 none [some 5, none, some 0, none]⟩

end DemoMed
